import Mathlib

/-!
Verification of the `groupy` molecular building block (`groupy/gbb.py`).

The `Gbb` class stores parallel per-atom arrays (positions, types, masses,
charges, velocities), topology tuples (bonds, angles, dihedrals, impropers)
and a cached centre of mass.  The definitions below are a shallow embedding
of the methods of that class; real-valued numpy arrays are modelled over `ℚ`
(over `ℝ` for `rotate`, whose rotation matrices use trigonometric entries).
Per-atom rows are functions `Fin 3 → ℚ`, lists model the arrays.
-/

/-- A 3-vector, one row of the `(n, 3)` coordinate array. -/
abbrev Vec3 (α : Type) : Type := Fin 3 → α

/-- The state of `Gbb` (`gbb.py`, `__init__`): parallel per-atom arrays,
1-indexed topology tuples (first component is the type id), and the cached
centre of mass `com`.  Force-field dictionaries and identity fields are not
touched by any operation verified here and are omitted. -/
structure Gbb (α : Type) where
  types : List String
  masses : List α
  charges : List α
  xyz : List (Vec3 α)
  vel : List (Vec3 α)
  resids : List ℕ
  resnames : List String
  bonds : List (ℕ × ℕ × ℕ)
  angles : List (ℕ × ℕ × ℕ × ℕ)
  dihedrals : List (ℕ × ℕ × ℕ × ℕ × ℕ)
  impropers : List (ℕ × ℕ × ℕ × ℕ × ℕ)
  com : Vec3 α
deriving DecidableEq

/-- A freshly constructed `Gbb()`: every array empty (`np.empty(shape=0, ...)`);
the uninitialised `np.empty(shape=(3))` cache is modelled as the zero vector. -/
def emptyGbb (α : Type) [Zero α] : Gbb α :=
  { types := [], masses := [], charges := [], xyz := [], vel := [],
    resids := [], resnames := [], bonds := [], angles := [],
    dihedrals := [], impropers := [], com := 0 }

/-- Modelled from the spec: the simulation `Box` is defined outside `src/`
(`groupy.mdio`); the spec describes it as an axis-aligned rectangular region
with per-dimension `mins`, `maxs` and `lengths` (lengths = max - min).
These three are its only per-dimension attributes. -/
structure Box where
  mins : Vec3 ℚ
  maxs : Vec3 ℚ
  lengths : Vec3 ℚ

/-- Modelled from the spec: `groupy.general.anint` is imported by `gbb.py` but
`general.py` is not under `src/`; the spec (§4.3) describes it as "round to
nearest integer" with ties away from zero (Fortran `ANINT`). -/
def anint (x : ℚ) : ℚ :=
  if 0 ≤ x then (⌊x + 1/2⌋ : ℤ) else (⌈x - 1/2⌉ : ℤ)

/-- Python truthiness of the optional integer `fixed_atom` argument:
`if fixed_atom:` is `False` both for `None` and for the integer `0`. -/
def intTruthy : Option ℕ → Bool
  | none => false
  | some n => n != 0

/-- Python truthiness of an optional string argument (`if atype:`):
`None` and the empty string are falsy. -/
def strTruthy : Option String → Bool
  | none => false
  | some s => s != ""

/-- Python truthiness of an optional float argument (`if mass:`):
`None` and `0.0` are falsy. -/
def ratTruthy : Option ℚ → Bool
  | none => false
  | some q => q != 0

/-- `Gbb.insert_atom` (`gbb.py:64`): always appends `pos` to `xyz`; appends to
`types`/`masses`/`charges` only when the corresponding optional argument is
truthy (`if atype:`, `if mass:`, `if charge:`). -/
def insert_atom (pos : Vec3 ℚ) (atype : Option String) (mass charge : Option ℚ)
    (g : Gbb ℚ) : Gbb ℚ :=
  { g with
    xyz := g.xyz ++ [pos],
    types := if strTruthy atype then g.types ++ [atype.getD ""] else g.types,
    masses := if ratTruthy mass then g.masses ++ [mass.getD 0] else g.masses,
    charges := if ratTruthy charge then g.charges ++ [charge.getD 0] else g.charges }

/-- `np.delete(arr, ids)` at in-range indices, carrying the running index `i`:
keeps the elements whose position is not listed in `ids`. -/
def deleteIdxFrom {α : Type} (ids : List ℕ) : ℕ → List α → List α
  | _, [] => []
  | i, a :: l =>
    if ids.contains i then deleteIdxFrom ids (i+1) l
    else a :: deleteIdxFrom ids (i+1) l

/-- `np.delete(arr, ids)` (in-range, duplicate-free `ids`). -/
def deleteIdx {α : Type} (ids : List ℕ) (l : List α) : List α :=
  deleteIdxFrom ids 0 l

/-- The `atom_map` loop of `Gbb.delete_ions` (`gbb.py:94`): old 1-indexed atom
numbers not in `ids_1` are assigned consecutive new numbers starting at 1.
`remaining` counts down the loop `for i in range(1, n + 1)`. -/
def buildAtomMapFrom (ids1 : List ℕ) : ℕ → ℕ → ℕ → List (ℕ × ℕ)
  | 0, _, _ => []
  | remaining+1, i, count =>
    if ids1.contains i then buildAtomMapFrom ids1 remaining (i+1) count
    else (i, count) :: buildAtomMapFrom ids1 remaining (i+1) (count+1)

/-- `atom_map` for `n` atoms. -/
def buildAtomMap (n : ℕ) (ids1 : List ℕ) : List (ℕ × ℕ) :=
  buildAtomMapFrom ids1 n 1 1

/-- `atom_map[k]`: a missing key is Python's `KeyError`, modelled as `none`. -/
def amLookup (m : List (ℕ × ℕ)) (k : ℕ) : Option ℕ :=
  m.lookup k

/-- Re-indexing of one bond tuple `(type, i, j)` through `atom_map`. -/
def remapBond (m : List (ℕ × ℕ)) (b : ℕ × ℕ × ℕ) : Option (ℕ × ℕ × ℕ) := do
  let i ← amLookup m b.2.1
  let j ← amLookup m b.2.2
  pure (b.1, i, j)

/-- Re-indexing of one angle tuple `(type, i, j, k)` through `atom_map`. -/
def remapAngle (m : List (ℕ × ℕ)) (a : ℕ × ℕ × ℕ × ℕ) : Option (ℕ × ℕ × ℕ × ℕ) := do
  let i ← amLookup m a.2.1
  let j ← amLookup m a.2.2.1
  let k ← amLookup m a.2.2.2
  pure (a.1, i, j, k)

/-- Re-indexing of one 5-tuple (dihedral/improper) through `atom_map`. -/
def remapDihedral (m : List (ℕ × ℕ)) (d : ℕ × ℕ × ℕ × ℕ × ℕ) :
    Option (ℕ × ℕ × ℕ × ℕ × ℕ) := do
  let i ← amLookup m d.2.1
  let j ← amLookup m d.2.2.1
  let k ← amLookup m d.2.2.2.1
  let l ← amLookup m d.2.2.2.2
  pure (d.1, i, j, k, l)

/-- `Gbb.delete_ions` (`gbb.py:88`), the public delete-by-index operation:
builds the 1-indexed `atom_map`, rewrites every topology tuple through it
(a missing key is a `KeyError`, modelled as `none`), then deletes the listed
indices from `types`, `charges`, `masses`, `xyz`, and from `vel` when `vel`
is non-empty. -/
def delete_ions (ids : List ℕ) (g : Gbb ℚ) : Option (Gbb ℚ) := do
  let ids1 := ids.map (· + 1)
  let m := buildAtomMap g.xyz.length ids1
  let bonds' ← g.bonds.mapM (remapBond m)
  let angles' ← g.angles.mapM (remapAngle m)
  let dihedrals' ← g.dihedrals.mapM (remapDihedral m)
  let impropers' ← g.impropers.mapM (remapDihedral m)
  pure { g with
    bonds := bonds', angles := angles', dihedrals := dihedrals',
    impropers := impropers',
    types := deleteIdx ids g.types,
    charges := deleteIdx ids g.charges,
    masses := deleteIdx ids g.masses,
    xyz := deleteIdx ids g.xyz,
    vel := if g.vel.isEmpty then g.vel else deleteIdx ids g.vel }

/-- `Gbb.delete_residue` (`gbb.py:132`): filters `resids`, `resnames`,
`types`, `xyz` and `vel` by `resid ≠ i`; it does not touch `masses`,
`charges` or the topology.  The per-atom arrays are filtered positionally by
the boolean mask `resids != i`, so each kept position is one whose `resid`
entry differs from `i`. -/
def delete_residue (i : ℕ) (g : Gbb ℚ) : Gbb ℚ :=
  let keep : List Bool := g.resids.map (fun r => r != i)
  let maskFilter : {β : Type} → List β → List β := fun l =>
    ((keep.zip l).filter (fun p => p.1)).map Prod.snd
  { g with
    resids := maskFilter g.resids,
    resnames := maskFilter g.resnames,
    types := maskFilter g.types,
    xyz := maskFilter g.xyz,
    vel := maskFilter g.vel }

/-- `Gbb.calc_com` (`gbb.py:145`): asserts equal array lengths, then sets the
cached `com` to `np.sum(xyz.T * masses, axis=1) / np.sum(masses)`.  The
failed assertion is modelled as `none`. -/
def calc_com (g : Gbb ℚ) : Option (Gbb ℚ) :=
  if g.xyz.length = g.masses.length then
    let com : Vec3 ℚ := (g.xyz.zip g.masses).foldl (fun acc p => acc + p.2 • p.1) 0
    let cum : ℚ := g.masses.foldl (· + ·) 0
    some { g with com := (1 / cum) • com }
  else none

/-- `Gbb.calc_com_group` (`gbb.py:156`): asserts equal array lengths, then
accumulates `com += xyz[atom] * masses[atom]` and `cum_mass += masses[atom]`
over the given index list and returns `com / cum_mass` (not cached). -/
def calc_com_group (g : Gbb ℚ) (atoms : List ℕ) : Option (Vec3 ℚ) :=
  if g.xyz.length = g.masses.length then
    let s := atoms.foldl
      (fun (acc : Vec3 ℚ × ℚ) a =>
        (acc.1 + g.masses.getD a 0 • g.xyz.getD a 0, acc.2 + g.masses.getD a 0))
      (0, 0)
    some ((1 / s.2) • s.1)
  else none

/-- The symmetric 3×3 inertia tensor being accumulated (`I = np.zeros((3,3))`
plus the in-place updates). -/
structure M3 where
  m00 : ℚ
  m01 : ℚ
  m02 : ℚ
  m10 : ℚ
  m11 : ℚ
  m12 : ℚ
  m20 : ℚ
  m21 : ℚ
  m22 : ℚ
deriving DecidableEq

/-- `np.zeros(shape=(3, 3))`. -/
def M3.zero : M3 := ⟨0, 0, 0, 0, 0, 0, 0, 0, 0⟩

/-- One loop body of `Gbb.calc_inertia_tensor`: the six in-place updates of
the upper triangle and diagonal for one atom of mass `m` at centred
coordinate `c`. -/
def tensorStep (m : ℚ) (c : Vec3 ℚ) (I : M3) : M3 :=
  { I with
    m00 := I.m00 + m * (c 1 * c 1 + c 2 * c 2),
    m11 := I.m11 + m * (c 0 * c 0 + c 2 * c 2),
    m22 := I.m22 + m * (c 0 * c 0 + c 1 * c 1),
    m01 := I.m01 - m * (c 0 * c 1),
    m02 := I.m02 - m * (c 0 * c 2),
    m12 := I.m12 - m * (c 1 * c 2) }

/-- The final mirroring `I[1,0] = I[0,1]; I[2,0] = I[0,2]; I[2,1] = I[1,2]`. -/
def symmetrize (I : M3) : M3 :=
  { I with m10 := I.m01, m20 := I.m02, m21 := I.m12 }

/-- Python's `not atoms` on the optional index-list argument: `True` for
`None` and for the empty list. -/
def pyNotList : Option (List ℕ) → Bool
  | none => true
  | some l => l.isEmpty

/-- `Gbb.calc_inertia_tensor` (`gbb.py:175`): asserts equal array lengths;
with `not atoms` it recomputes and caches the whole-structure centre of mass
(`self.calc_com()`) and accumulates over all atoms (`enumerate(self.xyz)`
with `masses[i]`, i.e. the zip of the two equal-length arrays); otherwise it
uses `calc_com_group(atoms)` (not cached) and accumulates over the listed
indices.  Returns the symmetrised tensor together with the structure as left
behind by the side effects. -/
def calc_inertia_tensor (g : Gbb ℚ) (atoms : Option (List ℕ)) :
    Option (M3 × Gbb ℚ) :=
  if g.xyz.length = g.masses.length then
    if pyNotList atoms then
      match calc_com g with
      | none => none
      | some g' =>
        let I := (g'.xyz.zip g'.masses).foldl
          (fun I p => tensorStep p.2 (p.1 - g'.com) I) M3.zero
        some (symmetrize I, g')
    else
      let l := atoms.getD []
      match calc_com_group g l with
      | none => none
      | some com =>
        let I := l.foldl
          (fun I a => tensorStep (g.masses.getD a 0) (g.xyz.getD a 0 - com) I)
          M3.zero
        some (symmetrize I, g)
  else none

/-- `Gbb.translate` (`gbb.py:229`): adds the offset to every row,
dimension-wise. -/
def Gbb.translate {α : Type} [Add α] (v : Vec3 α) (g : Gbb α) : Gbb α :=
  { g with xyz := g.xyz.map (· + v) }

/-- The x-axis rotation of `Gbb.rotate`: each row `p` of `xyz` becomes
`T @ p` with `T = [[1,0,0],[0,cosθ,-sinθ],[0,sinθ,cosθ]]`
(`np.dot(self.xyz, T.T)`). -/
noncomputable def rotX (θ : ℝ) (p : Vec3 ℝ) : Vec3 ℝ :=
  ![p 0, Real.cos θ * p 1 - Real.sin θ * p 2, Real.sin θ * p 1 + Real.cos θ * p 2]

/-- The y-axis rotation of `Gbb.rotate`:
`T = [[cosθ,0,sinθ],[0,1,0],[-sinθ,0,cosθ]]`. -/
noncomputable def rotY (θ : ℝ) (p : Vec3 ℝ) : Vec3 ℝ :=
  ![Real.cos θ * p 0 + Real.sin θ * p 2, p 1, -Real.sin θ * p 0 + Real.cos θ * p 2]

/-- The z-axis rotation of `Gbb.rotate`:
`T = [[cosθ,-sinθ,0],[sinθ,cosθ,0],[0,0,1]]`. -/
noncomputable def rotZ (θ : ℝ) (p : Vec3 ℝ) : Vec3 ℝ :=
  ![Real.cos θ * p 0 - Real.sin θ * p 1, Real.sin θ * p 0 + Real.cos θ * p 1, p 2]

/-- `Gbb.rotate` (`gbb.py:249`): when `if fixed_atom:` is truthy the structure
is translated by `amount_to_move = -xyz[fixed_atom]` first and by its negation
last; each axis rotation is applied in x, y, z order, each gated by
`angles[k] != 0.0`. -/
noncomputable def rotate (angles : ℝ × ℝ × ℝ) (fixed_atom : Option ℕ)
    (g : Gbb ℝ) : Gbb ℝ :=
  let amount : Vec3 ℝ := -(g.xyz.getD (fixed_atom.getD 0) 0)
  let g0 := if intTruthy fixed_atom then g.translate amount else g
  let g1 := if angles.1 ≠ 0 then { g0 with xyz := g0.xyz.map (rotX angles.1) } else g0
  let g2 := if angles.2.1 ≠ 0 then { g1 with xyz := g1.xyz.map (rotY angles.2.1) } else g1
  let g3 := if angles.2.2 ≠ 0 then { g2 with xyz := g2.xyz.map (rotZ angles.2.2) } else g2
  if intTruthy fixed_atom then g3.translate (-amount) else g3

/-- The inner double loop of `Gbb.unwrap` for one non-anchor row: in each
enabled dimension `k`, `dr = xyz[i,k] - xyz[0,k]` and
`xyz[i,k] -= box_length * anint(dr / box_length)`. -/
def unwrapRow (box : Box) (dim : Fin 3 → Bool) (anchor p : Vec3 ℚ) : Vec3 ℚ :=
  fun k =>
    if dim k then p k - box.lengths k * anint ((p k - anchor k) / box.lengths k)
    else p k

/-- The outer loop of `Gbb.unwrap` (`for i, atom in enumerate(self.xyz)`),
updating the coordinate array in place: row `0` is skipped, every other row
`i` is overwritten using the current row `0` (never written) and the current
row `i`. -/
def unwrapLoop (f : Vec3 ℚ → Vec3 ℚ → Vec3 ℚ) (l : List (Vec3 ℚ)) :
    List (Vec3 ℚ) :=
  (List.range l.length).foldl
    (fun xs i => if i = 0 then xs else xs.set i (f (xs.getD 0 0) (xs.getD i 0)))
    l

/-- `Gbb.unwrap` (`gbb.py:294`). -/
def unwrap (box : Box) (dim : Fin 3 → Bool) (g : Gbb ℚ) : Gbb ℚ :=
  { g with xyz := unwrapLoop (unwrapRow box dim) g.xyz }

/-- The error raised by evaluating `box.lenghts` (`gbb.py:314,317`): the shift
lines of `Gbb.wrap` misspell the `lengths` attribute, and `Box` has no
attribute `lenghts`, so reaching either shift branch raises `AttributeError`. -/
def wrapAttrErr : String :=
  "AttributeError: Box instance has no attribute lenghts"

/-- One dimension of the `Gbb.wrap` loop body (`gbb.py:308`): coordinates
below the box minimum or above the box maximum need a periodic shift; the
shift amount `n` is computed from `box.lengths`, but the in-place update then
reads `box.lenghts` (misspelled), which raises `AttributeError`.  In-range
coordinates (including one exactly at the maximum, since the test is
`c > box.maxs[k]`) are left unchanged. -/
def wrapCoord (box : Box) (k : Fin 3) (c : ℚ) : Except String ℚ :=
  if c < box.mins k then
    let _n : ℤ := ⌊(box.mins k - c) / box.lengths k⌋ + 1
    Except.error wrapAttrErr
  else if c > box.maxs k then
    let _n : ℤ := ⌊(c - box.maxs k) / box.lengths k⌋ + 1
    Except.error wrapAttrErr
  else Except.ok c

/-- The inner loop of `Gbb.wrap` over the three dimensions of one row. -/
def wrapRow (box : Box) (p : Vec3 ℚ) : Except String (Vec3 ℚ) := do
  let a ← wrapCoord box 0 (p 0)
  let b ← wrapCoord box 1 (p 1)
  let c ← wrapCoord box 2 (p 2)
  pure ![a, b, c]

/-- `Gbb.wrap` (`gbb.py:308`): wraps every atom independently; the first
out-of-range coordinate encountered raises (see `wrapCoord`). -/
def wrap (box : Box) (g : Gbb ℚ) : Except String (Gbb ℚ) := do
  let xyz' ← g.xyz.mapM (wrapRow box)
  pure { g with xyz := xyz' }

/-- The per-atom arrays of the spec's invariant (§3): `types`, `masses`,
`charges` and, when present (non-empty), `vel`, all share the length of
`xyz`. -/
def equalLengths (g : Gbb ℚ) : Prop :=
  g.types.length = g.xyz.length ∧ g.masses.length = g.xyz.length ∧
  g.charges.length = g.xyz.length ∧ (g.vel ≠ [] → g.vel.length = g.xyz.length)

instance (g : Gbb ℚ) : Decidable (equalLengths g) := by
  unfold equalLengths; infer_instance

/-- An XML prototype as seen by `Gbb.load_xml_prototype` after
`cElementTree` parsing: each `config.find(...)` section is either absent
(`None`) or present with its data rows (the first header line of each text
block is skipped by the loader; rows are modelled already split and parsed,
as the loader's list comprehensions produce them). -/
structure XmlProto where
  position : Option (List (Vec3 ℚ))
  bond : Option (List (ℕ × ℕ × ℕ))
  angle : Option (List (ℕ × ℕ × ℕ × ℕ))
  dihedral : Option (List (ℕ × ℕ × ℕ × ℕ × ℕ))
  improper : Option (List (ℕ × ℕ × ℕ × ℕ × ℕ))
  mass : Option (List ℚ)
  charge : Option (List ℚ)
  atom_type : Option (List String)

/-- Errors of `Gbb.load_xml_prototype`: reading `section.text` of an absent
mandatory section raises (`AttributeError` on `None` — the consistency error
for a missing mandatory prototype section, spec §7); a failed row-count
assertion raises `AssertionError`. -/
inductive LoadErr where
  | missingSection (name : String)
  | countMismatch (which : String)
deriving DecidableEq

/-- `Gbb.load_xml_prototype` (`gbb.py:492`): parses the mandatory sections in
source order (`position`, `mass`, `charge`, `type`), asserts the row counts
are mutually consistent, overwrites the per-atom arrays (the numpy `reshape`
calls are shape-only and the `skip_masses` flag only gates a reshape, so it
has no effect here), then tries each optional topology section, keeping the
previous value when the section is absent (`except AttributeError: pass`). -/
def load_xml_prototype (g : Gbb ℚ) (p : XmlProto)
    (skip_coords skip_types skip_masses : Bool) : Except LoadErr (Gbb ℚ) :=
  match p.position with
  | none => Except.error (LoadErr.missingSection "position")
  | some xyz =>
    match p.mass with
    | none => Except.error (LoadErr.missingSection "mass")
    | some masses =>
      match p.charge with
      | none => Except.error (LoadErr.missingSection "charge")
      | some charges =>
        match p.atom_type with
        | none => Except.error (LoadErr.missingSection "type")
        | some types =>
          let ok1 : Bool :=
            if skip_coords then masses.length == charges.length
            else xyz.length == masses.length && masses.length == charges.length
          if ok1 then
            if masses.length == types.length then
              let g1 := { g with
                charges := charges,
                masses := masses,
                xyz := if skip_coords then g.xyz else xyz,
                types := if skip_types then g.types else types }
              let g2 := match p.bond with
                | some bs => { g1 with bonds := bs }
                | none => g1
              let g3 := match p.angle with
                | some as0 => { g2 with angles := as0 }
                | none => g2
              let g4 := match p.dihedral with
                | some ds => { g3 with dihedrals := ds }
                | none => g3
              let g5 := match p.improper with
                | some is0 => { g4 with impropers := is0 }
                | none => g4
              Except.ok g5
            else Except.error (LoadErr.countMismatch "masses and types")
          else
            Except.error
              (LoadErr.countMismatch "positions, masses, types and charges")

/-! ## Helper lemmas -/

/-- Splitting a fold with a product accumulator whose components evolve
independently. -/
lemma foldl_pair_split {α β γ : Type} (l : List α) (f : β → α → β)
    (h : γ → α → γ) (b : β) (c : γ) :
    l.foldl (fun acc x => (f acc.1 x, h acc.2 x)) (b, c) =
      (l.foldl f b, l.foldl h c) := by
  induction l generalizing b c with
  | nil => rfl
  | cons x t ih => simpa using ih (f b x) (h c x)

/-- A fold over `List.range` that reads two equal-length lists by index is the
fold over their zip. -/
lemma foldl_range_getD₂ {α β γ : Type} (xs : List α)
    (da : α) (db : β) (f : γ → α → β → γ) :
    ∀ (ys' : List β), xs.length = ys'.length → ∀ (init : γ),
      (List.range xs.length).foldl
        (fun acc i => f acc (xs.getD i da) (ys'.getD i db)) init =
      (xs.zip ys').foldl (fun acc p => f acc p.1 p.2) init := by
  induction xs with
  | nil => intro ys' _ init; simp
  | cons x xs ih =>
    intro ys' hlen init
    cases ys' with
    | nil => simp at hlen
    | cons y ys' =>
      rw [List.length_cons, List.range_succ_eq_map, List.foldl_cons,
        List.foldl_map]
      simp only [List.getD_cons_zero, List.getD_cons_succ, List.zip_cons_cons,
        List.foldl_cons]
      exact ih ys' (by simpa using hlen) (f init x y)

/-- A left fold that only adds images is the sum of the mapped list. -/
lemma foldl_add_eq_sum {α M : Type} [AddCommMonoid M] (l : List α) (f : α → M) :
    ∀ (init : M), l.foldl (fun acc x => acc + f x) init = init + (l.map f).sum := by
  induction l with
  | nil => intro init; simp
  | cons x t ih => intro init; rw [List.foldl_cons, ih, List.map_cons,
      List.sum_cons, add_assoc]

/-- Folding the second components of a zip of equal-length lists is folding
the second list. -/
lemma foldl_zip_snd {α : Type} (xs : List α) (ys : List ℚ)
    (hlen : xs.length = ys.length) (c0 : ℚ) :
    (xs.zip ys).foldl (fun c p => c + p.2) c0 = ys.foldl (· + ·) c0 := by
  have h1 := List.foldl_map (Prod.snd : α × ℚ → ℚ)
    (fun (c : ℚ) (m : ℚ) => c + m) (xs.zip ys) c0
  rw [List.map_snd_zip xs ys (le_of_eq hlen.symm)] at h1
  exact h1.symm

/-- Scalar multiples factor out of a list sum. -/
lemma sum_map_smul {α : Type} (c : ℚ) (l : List α) (f : α → Vec3 ℚ) :
    (l.map (fun x => c • f x)).sum = c • (l.map f).sum := by
  induction l with
  | nil => simp
  | cons x t ih => simp [ih, smul_add]

/-- Multiplication factors out of a rational list sum. -/
lemma sum_map_mul (c : ℚ) (l : List ℚ) :
    (l.map (fun m => c * m)).sum = c * l.sum := by
  induction l with
  | nil => simp
  | cons x t ih => simp [ih, mul_add]

/-- `anint` of anything strictly inside `(-1/2, 1/2)` is `0`. -/
lemma anint_eq_zero {u : ℚ} (h : |u| < 1/2) : anint u = 0 := by
  obtain ⟨h1, h2⟩ := abs_lt.mp h
  unfold anint
  by_cases h0 : 0 ≤ u
  · rw [if_pos h0]
    have : ⌊u + 1/2⌋ = 0 := by
      rw [Int.floor_eq_zero_iff]
      constructor
      · linarith
      · simpa using by linarith
    rw [this]; norm_num
  · rw [if_neg h0]
    have : ⌈u - 1/2⌉ = 0 := by
      rw [Int.ceil_eq_zero_iff]
      constructor
      · simpa using by linarith
      · linarith
    rw [this]; norm_num

/-- Lengths are preserved by the in-place update loop of `unwrap`. -/
lemma unwrapLoop_length (f : Vec3 ℚ → Vec3 ℚ → Vec3 ℚ) (l : List (Vec3 ℚ)) :
    (unwrapLoop f l).length = l.length := by
  unfold unwrapLoop
  generalize List.range l.length = is
  induction is generalizing l with
  | nil => rfl
  | cons i is ih =>
    rw [List.foldl_cons]
    by_cases hi : i = 0
    · rw [if_pos hi]; exact ih l
    · rw [if_neg hi, ih, List.length_set]

/-- Characterisation of the `unwrap` in-place loop over any duplicate-free
index list: index 0 is never written, every listed non-zero index is
rewritten once from the original anchor row and its own original value. -/
lemma foldl_unwrapStep_getElem? (f : Vec3 ℚ → Vec3 ℚ → Vec3 ℚ) :
    ∀ (is : List ℕ), is.Nodup → ∀ (xs : List (Vec3 ℚ)) (j : ℕ),
      (is.foldl
        (fun ys i => if i = 0 then ys else ys.set i (f (ys.getD 0 0) (ys.getD i 0)))
        xs)[j]? =
      if j = 0 ∨ j ∉ is then xs[j]? else (xs[j]?).map (f (xs.getD 0 0)) := by
  intro is
  induction is with
  | nil => intro _ xs j; simp
  | cons i is ih =>
    intro hnd xs j
    obtain ⟨hi_not, hnd'⟩ := List.nodup_cons.mp hnd
    rw [List.foldl_cons]
    by_cases hi : i = 0
    · subst hi
      rw [if_pos rfl, ih hnd' xs j]
      by_cases hj : j = 0
      · simp [hj]
      · by_cases hjs : j ∈ is <;> simp [hj, hjs]
    · rw [if_neg hi, ih hnd' _ j]
      have hset0 : (xs.set i (f (xs.getD 0 0) (xs.getD i 0))).getD 0 0 = xs.getD 0 0 := by
        rw [List.getD_eq_getElem?_getD, List.getElem?_set_ne hi,
          ← List.getD_eq_getElem?_getD]
      by_cases hj : j = 0
      · rw [if_pos (Or.inl hj), if_pos (Or.inl hj),
          List.getElem?_set_ne (fun h => hi (h.trans hj))]
      · by_cases hji : j = i
        · have hjis : j ∉ is := by rw [hji]; exact hi_not
          rw [if_pos (Or.inr hjis),
            if_neg (by simp [hj, List.mem_cons, hji, hjis, hi])]
          rw [hji, List.getElem?_set_self']
          cases hx : xs[i]? with
          | none => simp
          | some v =>
            have hv : xs.getD i 0 = v := by
              rw [List.getD_eq_getElem?_getD, hx]; rfl
            simp only [Option.map_some', Function.const, hv]
            simp [hx]
        · have hne : i ≠ j := fun h => hji h.symm
          rw [List.getElem?_set_ne hne, hset0]
          by_cases hjs : j ∈ is
          · rw [if_neg (by simp [hj, hjs]), if_neg (by simp [hj, hjs])]
          · rw [if_pos (Or.inr hjs),
              if_pos (Or.inr (by simp [List.mem_cons, hji, hjs]))]

/-- Row-wise description of `unwrap`'s coordinate update. -/
lemma unwrapLoop_getElem? (f : Vec3 ℚ → Vec3 ℚ → Vec3 ℚ) (l : List (Vec3 ℚ))
    (j : ℕ) :
    (unwrapLoop f l)[j]? =
      (l[j]?).map (fun p => if j = 0 then p else f (l.getD 0 0) p) := by
  unfold unwrapLoop
  rw [foldl_unwrapStep_getElem? f (List.range l.length) (List.nodup_range _) l j]
  by_cases hj : j = 0
  · subst hj
    simp
  · by_cases hlt : j < l.length
    · rw [if_neg (by simp [hj, List.mem_range, hlt])]
      simp [hj]
    · rw [if_pos (by simp [List.mem_range]; omega)]
      rw [List.getElem?_eq_none (by omega)]
      simp

/-! ## C2: unwrap minimum-image correction -/

/-- The box of the C2 scenario: length 10 along x. -/
def boxC2 : Box :=
  { mins := ![0,0,0], maxs := ![10,10,10], lengths := ![10,10,10] }

/-- The 2-atom body of the C2 scenario: anchor at x = 0, second atom at x = 9. -/
def gC2 : Gbb ℚ := { emptyGbb ℚ with xyz := [![0,0,0], ![9,0,0]] }

/-- C2: for every structure, box and dimension flags, `unwrap` leaves atom 0
unchanged and replaces every other atom's coordinate in each enabled
dimension `k` by the old coordinate minus `box.lengths k` times the nearest
integer (ties away from zero) to `(coordinate - anchor coordinate) /
box.lengths k`; and in the concrete 2-atom scenario with box length 10 along
x, anchor at x = 0 and second atom at x = 9, unwrapping only the x dimension
moves the second atom to x = -1. -/
theorem C2_unwrap_minimum_image (box : Box) (dim : Fin 3 → Bool) (g : Gbb ℚ)
    (j : ℕ) :
    ((unwrap box dim g).xyz[j]? = (g.xyz[j]?).map (fun p =>
      if j = 0 then p
      else fun k =>
        if dim k then
          p k - box.lengths k * anint ((p k - (g.xyz.getD 0 0) k) / box.lengths k)
        else p k))
    ∧ (unwrap boxC2 ![true, false, false] gC2).xyz = [![0,0,0], ![-1,0,0]] := by
  constructor
  · exact unwrapLoop_getElem? (unwrapRow box dim) g.xyz j
  · show unwrapLoop (unwrapRow boxC2 ![true, false, false])
      [![0,0,0], ![9,0,0]] = [![0,0,0], ![-1,0,0]]
    show (List.range 2).foldl _ _ = _
    simp only [List.range_succ, List.range_zero, List.nil_append,
      List.cons_append, List.foldl_cons, List.foldl_nil]
    norm_num
    funext k
    fin_cases k <;>
      simp [unwrapRow, anint, boxC2, List.getD] <;>
      norm_num [Int.floor_eq_iff]

/-! ## C9: unwrap idempotence on a compact body -/

/-- The box of the C9 witness. -/
def boxC9 : Box :=
  { mins := ![0,0,0], maxs := ![10,10,10], lengths := ![10,10,10] }

/-- The already-unwrapped 2-atom body of the C9 witness (extent 1 < 10/2). -/
def gC9 : Gbb ℚ := { emptyGbb ℚ with xyz := [![0,0,0], ![1,0,0]] }

/-- On a body whose extent in every enabled dimension is under half the box
length, `unwrap` changes nothing. -/
lemma unwrap_eq_self (box : Box) (dim : Fin 3 → Bool) (g : Gbb ℚ)
    (hpos : ∀ k, 0 < box.lengths k)
    (hext : ∀ k, dim k = true → ∀ p ∈ g.xyz, ∀ q ∈ g.xyz,
      |p k - q k| < box.lengths k / 2) :
    unwrap box dim g = g := by
  have hxyz : unwrapLoop (unwrapRow box dim) g.xyz = g.xyz := by
    apply List.ext_getElem?
    intro j
    rw [unwrapLoop_getElem?]
    cases hx : g.xyz[j]? with
    | none => rfl
    | some p =>
      simp only [Option.map_some']
      congr 1
      by_cases hj : j = 0
      · rw [if_pos hj]
      · rw [if_neg hj]
        have hpmem : p ∈ g.xyz := List.getElem?_mem hx
        have hne : g.xyz ≠ [] := by
          intro h; rw [h] at hx; simp at hx
        have hamem : g.xyz.getD 0 0 ∈ g.xyz := by
          cases hl : g.xyz with
          | nil => exact absurd hl hne
          | cons a t => simp [List.getD]
        funext k
        show unwrapRow box dim (g.xyz.getD 0 0) p k = p k
        unfold unwrapRow
        by_cases hd : dim k
        · rw [if_pos hd]
          have h1 := hext k hd p hpmem (g.xyz.getD 0 0) hamem
          have hL := hpos k
          have h2 : |(p k - (g.xyz.getD 0 0) k) / box.lengths k| < 1/2 := by
            rw [abs_div, abs_of_pos hL, div_lt_iff hL]
            linarith
          rw [anint_eq_zero h2]
          ring
        · rw [if_neg hd]
  show ({ g with xyz := unwrapLoop (unwrapRow box dim) g.xyz } : Gbb ℚ) = g
  rw [hxyz]

/-- C9: applying `unwrap` twice to a structure whose extent along each
enabled dimension is strictly under half the (positive) box length gives
exactly the positions of a single application. -/
theorem C9_unwrap_idempotent (box : Box) (dim : Fin 3 → Bool) (g : Gbb ℚ)
    (hpos : ∀ k, 0 < box.lengths k)
    (hext : ∀ k, dim k = true → ∀ p ∈ g.xyz, ∀ q ∈ g.xyz,
      |p k - q k| < box.lengths k / 2) :
    unwrap box dim (unwrap box dim g) = unwrap box dim g := by
  have h := unwrap_eq_self box dim g hpos hext
  rw [h]
  exact h

/-- C9 witness: the hypotheses hold and the conclusion follows at a concrete
unwrapped 2-atom body in a cubic box of length 10. -/
theorem C9_unwrap_idempotent_witness :
    (∀ k, 0 < boxC9.lengths k) ∧
    unwrap boxC9 ![true, true, true] (unwrap boxC9 ![true, true, true] gC9) =
      unwrap boxC9 ![true, true, true] gC9 := by
  have hpos : ∀ k, 0 < boxC9.lengths k := by
    intro k; fin_cases k <;> norm_num [boxC9]
  have hext : ∀ k, (![true, true, true] : Fin 3 → Bool) k = true →
      ∀ p ∈ gC9.xyz, ∀ q ∈ gC9.xyz, |p k - q k| < boxC9.lengths k / 2 := by
    intro k _ p hp q hq
    have hg : gC9.xyz = [![0,0,0], ![1,0,0]] := rfl
    rw [hg] at hp hq
    fin_cases hp <;> fin_cases hq <;> fin_cases k <;> norm_num [boxC9]
  exact ⟨hpos, C9_unwrap_idempotent boxC9 ![true, true, true] gC9 hpos hext⟩

/-! ## C1: centre of mass -/

/-- Closed form of the cached centre of mass: the mass-weighted mean. -/
lemma calc_com_eq (g : Gbb ℚ) (hlen : g.xyz.length = g.masses.length) :
    calc_com g = some { g with
      com := (g.masses.sum)⁻¹ •
        ((g.xyz.zip g.masses).map (fun p => p.2 • p.1)).sum } := by
  have hcom : (1 / g.masses.foldl (· + ·) 0) •
      ((g.xyz.zip g.masses).foldl
        (fun (acc : Vec3 ℚ) (p : Vec3 ℚ × ℚ) => acc + p.2 • p.1) 0) =
      (g.masses.sum)⁻¹ • ((g.xyz.zip g.masses).map (fun p => p.2 • p.1)).sum := by
    rw [← List.sum_eq_foldl, foldl_add_eq_sum, zero_add, one_div]
  unfold calc_com
  rw [if_pos hlen]
  show some ({ g with
    com := (1 / g.masses.foldl (· + ·) 0) •
      ((g.xyz.zip g.masses).foldl
        (fun (acc : Vec3 ℚ) (p : Vec3 ℚ × ℚ) => acc + p.2 • p.1) 0) }) = _
  rw [hcom]

/-- The single-atom structure of the C1 witness. -/
def gC1 : Gbb ℚ := { emptyGbb ℚ with xyz := [![1,2,3]], masses := [2] }

/-- C1: on non-empty equal-length arrays with non-zero total mass,
`calc_com` caches the mass-weighted mean position `Σ mᵢ • rᵢ / Σ mᵢ`; for a
single atom the result is that atom's position, and scaling every mass by a
non-zero constant leaves the result unchanged. -/
theorem C1_center_of_mass (g : Gbb ℚ) (hne : g.xyz ≠ [])
    (hlen : g.xyz.length = g.masses.length) (hm : g.masses.sum ≠ 0) :
    (calc_com g = some { g with
      com := (g.masses.sum)⁻¹ •
        ((g.xyz.zip g.masses).map (fun p => p.2 • p.1)).sum })
    ∧ (∀ p m, g.xyz = [p] → g.masses = [m] →
        ∃ g', calc_com g = some g' ∧ g'.com = p)
    ∧ (∀ c : ℚ, c ≠ 0 → ∀ g1 g2,
        calc_com g = some g1 →
        calc_com { g with masses := g.masses.map (fun m => c * m) } = some g2 →
        g2.com = g1.com) := by
  refine ⟨calc_com_eq g hlen, ?_, ?_⟩
  · intro p m hxp hxm
    refine ⟨_, calc_com_eq g hlen, ?_⟩
    have hm0 : m ≠ 0 := by
      rw [hxm] at hm
      simpa using hm
    dsimp only
    rw [hxp, hxm]
    simp only [List.zip_cons_cons, List.zip_nil_right, List.map_cons,
      List.map_nil, List.sum_cons, List.sum_nil, add_zero]
    rw [smul_smul, inv_mul_cancel₀ hm0, one_smul]
  · intro c hc g1 g2 h1 h2
    have hlen2 : ({ g with masses := g.masses.map (fun m => c * m) } : Gbb ℚ).xyz.length =
        ({ g with masses := g.masses.map (fun m => c * m) } : Gbb ℚ).masses.length := by
      simpa using hlen
    rw [calc_com_eq g hlen] at h1
    rw [calc_com_eq _ hlen2] at h2
    obtain rfl := Option.some.inj h1
    obtain rfl := Option.some.inj h2
    dsimp only
    rw [List.zip_map_right, List.map_map]
    have hmapeq : ((fun (p : Vec3 ℚ × ℚ) => p.2 • p.1) ∘ Prod.map id (fun m => c * m)) =
        (fun (p : Vec3 ℚ × ℚ) => c • (p.2 • p.1)) := by
      funext q
      simp [Prod.map, mul_smul]
    rw [hmapeq, sum_map_smul, sum_map_mul, smul_smul, mul_inv_rev, mul_assoc,
      inv_mul_cancel₀ hc, mul_one]

/-- C1 witness: hypotheses and the single-atom conclusion at a concrete
one-atom structure of mass 2 at position (1, 2, 3). -/
theorem C1_center_of_mass_witness :
    gC1.xyz ≠ [] ∧ gC1.xyz.length = gC1.masses.length ∧ gC1.masses.sum ≠ 0 ∧
    ∃ g', calc_com gC1 = some g' ∧ g'.com = ![1, 2, 3] := by
  have h1 : gC1.xyz ≠ [] := by simp [gC1, emptyGbb]
  have h2 : gC1.xyz.length = gC1.masses.length := rfl
  have h3 : gC1.masses.sum ≠ 0 := by norm_num [gC1, emptyGbb]
  exact ⟨h1, h2, h3, (C1_center_of_mass gC1 h1 h2 h3).2.1 ![1, 2, 3] 2 rfl rfl⟩

/-! ## C6 and C10: inertia tensor with and without a subset -/

/-- `calc_com` in raw fold form. -/
lemma calc_com_fold (g : Gbb ℚ) (hlen : g.xyz.length = g.masses.length) :
    calc_com g = some { g with
      com := (1 / g.masses.foldl (· + ·) 0) •
        ((g.xyz.zip g.masses).foldl
          (fun (acc : Vec3 ℚ) (p : Vec3 ℚ × ℚ) => acc + p.2 • p.1) 0) } := by
  unfold calc_com
  rw [if_pos hlen]

/-- `calc_com_group` over the full index range equals the whole-structure
centre of mass value. -/
lemma calc_com_group_range (g : Gbb ℚ)
    (hlen : g.xyz.length = g.masses.length) :
    calc_com_group g (List.range g.xyz.length) = some
      ((1 / g.masses.foldl (· + ·) 0) •
        ((g.xyz.zip g.masses).foldl
          (fun (acc : Vec3 ℚ) (p : Vec3 ℚ × ℚ) => acc + p.2 • p.1) 0)) := by
  unfold calc_com_group
  rw [if_pos hlen]
  have hs := foldl_range_getD₂ g.xyz (0 : Vec3 ℚ) (0 : ℚ)
    (fun (acc : Vec3 ℚ × ℚ) x m => (acc.1 + m • x, acc.2 + m))
    g.masses hlen ((0, 0) : Vec3 ℚ × ℚ)
  rw [show ((g.xyz.zip g.masses).foldl
      (fun (acc : Vec3 ℚ × ℚ) p => (acc.1 + p.2 • p.1, acc.2 + p.2)) (0, 0)) =
      ((g.xyz.zip g.masses).foldl (fun acc p => acc + p.2 • p.1) 0,
       (g.xyz.zip g.masses).foldl (fun acc p => acc + p.2) 0) from
    foldl_pair_split (g.xyz.zip g.masses)
      (fun (b : Vec3 ℚ) (p : Vec3 ℚ × ℚ) => b + p.2 • p.1)
      (fun (c : ℚ) (p : Vec3 ℚ × ℚ) => c + p.2) 0 0] at hs
  rw [foldl_zip_snd g.xyz g.masses hlen 0] at hs
  show some ((1 / ((List.range g.xyz.length).foldl
      (fun (acc : Vec3 ℚ × ℚ) a =>
        (acc.1 + g.masses.getD a 0 • g.xyz.getD a 0, acc.2 + g.masses.getD a 0))
      (0, 0)).2) •
    ((List.range g.xyz.length).foldl
      (fun (acc : Vec3 ℚ × ℚ) a =>
        (acc.1 + g.masses.getD a 0 • g.xyz.getD a 0, acc.2 + g.masses.getD a 0))
      (0, 0)).1) = _
  rw [hs]

/-- The structure used by the C6 and C10 witnesses: two unit masses at
(+1, 0, 0) and (-1, 0, 0). -/
def gC6 : Gbb ℚ :=
  { emptyGbb ℚ with xyz := [![1,0,0], ![-1,0,0]], masses := [1, 1] }

/-- C6: `calc_inertia_tensor` called with the list of all atom indices
returns the same tensor as the call with no subset. -/
theorem C6_inertia_tensor_full_subset (g : Gbb ℚ) (hne : g.xyz ≠ [])
    (hlen : g.xyz.length = g.masses.length) (hm : g.masses.sum ≠ 0) :
    (calc_inertia_tensor g (some (List.range g.xyz.length))).map Prod.fst =
    (calc_inertia_tensor g none).map Prod.fst := by
  have hn : g.xyz.length ≠ 0 := by
    simpa [List.length_eq_zero] using hne
  have h1 : pyNotList (some (List.range g.xyz.length)) = false := by
    simp [pyNotList, List.isEmpty_iff, List.range_eq_nil, hn]
  unfold calc_inertia_tensor
  rw [if_pos hlen, if_pos hlen, h1]
  show (Option.map Prod.fst
    (match calc_com_group g ((some (List.range g.xyz.length)).getD []) with
      | none => none
      | some com => some (symmetrize ((some (List.range g.xyz.length)).getD [] |>.foldl
          (fun I a => tensorStep (g.masses.getD a 0) (g.xyz.getD a 0 - com) I)
          M3.zero), g))) = _
  rw [show ((some (List.range g.xyz.length)).getD [] : List ℕ) =
    List.range g.xyz.length from rfl]
  rw [calc_com_group_range g hlen, calc_com_fold g hlen]
  show some (symmetrize ((List.range g.xyz.length).foldl
      (fun I a => tensorStep (g.masses.getD a 0) (g.xyz.getD a 0 -
        ((1 / g.masses.foldl (· + ·) 0) •
          ((g.xyz.zip g.masses).foldl
            (fun (acc : Vec3 ℚ) (p : Vec3 ℚ × ℚ) => acc + p.2 • p.1) 0))) I)
      M3.zero)) = _
  rw [foldl_range_getD₂ g.xyz (0 : Vec3 ℚ) (0 : ℚ)
    (fun I x m => tensorStep m (x -
      ((1 / g.masses.foldl (· + ·) 0) •
        ((g.xyz.zip g.masses).foldl
          (fun (acc : Vec3 ℚ) (p : Vec3 ℚ × ℚ) => acc + p.2 • p.1) 0))) I)
    g.masses hlen M3.zero]
  rfl

/-- C6 witness: hypotheses and the conclusion at two unit masses on the
x axis. -/
theorem C6_inertia_tensor_full_subset_witness :
    gC6.xyz ≠ [] ∧ gC6.xyz.length = gC6.masses.length ∧ gC6.masses.sum ≠ 0 ∧
    (calc_inertia_tensor gC6 (some (List.range gC6.xyz.length))).map Prod.fst =
      (calc_inertia_tensor gC6 none).map Prod.fst := by
  have h1 : gC6.xyz ≠ [] := by simp [gC6, emptyGbb]
  have h2 : gC6.xyz.length = gC6.masses.length := rfl
  have h3 : gC6.masses.sum ≠ 0 := by norm_num [gC6, emptyGbb]
  exact ⟨h1, h2, h3, C6_inertia_tensor_full_subset gC6 h1 h2 h3⟩

/-- C10: passing an explicitly empty subset list takes the same
whole-structure path as passing no subset at all — Python's `if not atoms:`
is true for the empty list — recomputing and caching the whole-structure
centre of mass, rather than producing the empty-sum zero tensor. -/
theorem C10_inertia_tensor_empty_subset (g : Gbb ℚ) (hne : g.xyz ≠ [])
    (hlen : g.xyz.length = g.masses.length) (hm : g.masses.sum ≠ 0) :
    calc_inertia_tensor g (some []) = calc_inertia_tensor g none
    ∧ ∃ I g', calc_inertia_tensor g (some []) = some (I, g') ∧
        calc_com g = some g' := by
  constructor
  · rfl
  · have hcc := calc_com_fold g hlen
    have hten : calc_inertia_tensor g (some []) =
        some (symmetrize ((g.xyz.zip g.masses).foldl
            (fun I p => tensorStep p.2 (p.1 -
              (1 / g.masses.foldl (· + ·) 0) •
                ((g.xyz.zip g.masses).foldl
                  (fun (acc : Vec3 ℚ) (q : Vec3 ℚ × ℚ) => acc + q.2 • q.1) 0)) I)
            M3.zero),
          { g with com := (1 / g.masses.foldl (· + ·) 0) •
              ((g.xyz.zip g.masses).foldl
                (fun (acc : Vec3 ℚ) (q : Vec3 ℚ × ℚ) => acc + q.2 • q.1) 0) }) := by
      unfold calc_inertia_tensor
      rw [if_pos hlen, show pyNotList (some []) = true from rfl, hcc]
      rfl
    exact ⟨_, _, hten, hcc⟩

/-- C10 witness: hypotheses and conclusion at the two-unit-mass structure. -/
theorem C10_inertia_tensor_empty_subset_witness :
    gC6.xyz ≠ [] ∧ gC6.xyz.length = gC6.masses.length ∧ gC6.masses.sum ≠ 0 ∧
    calc_inertia_tensor gC6 (some []) = calc_inertia_tensor gC6 none := by
  have h1 : gC6.xyz ≠ [] := by simp [gC6, emptyGbb]
  have h2 : gC6.xyz.length = gC6.masses.length := rfl
  have h3 : gC6.masses.sum ≠ 0 := by norm_num [gC6, emptyGbb]
  exact ⟨h1, h2, h3, (C10_inertia_tensor_empty_subset gC6 h1 h2 h3).1⟩

/-! ## C3: per-atom array length invariant -/

/-- Deleting the same index set from two equal-length lists leaves two
equal-length lists. -/
lemma deleteIdxFrom_length_congr {α β : Type} (ids : List ℕ) :
    ∀ (l1 : List α) (i : ℕ) (l2 : List β), l1.length = l2.length →
      (deleteIdxFrom ids i l1).length = (deleteIdxFrom ids i l2).length := by
  intro l1
  induction l1 with
  | nil =>
    intro i l2 h
    cases l2 with
    | nil => rfl
    | cons b t => simp at h
  | cons a t ih =>
    intro i l2 h
    cases l2 with
    | nil => simp at h
    | cons b t2 =>
      simp only [deleteIdxFrom]
      by_cases hc : ids.contains i
      · rw [if_pos hc, if_pos hc]
        exact ih (i+1) t2 (by simpa using h)
      · rw [if_neg hc, if_neg hc]
        simp only [List.length_cons]
        rw [ih (i+1) t2 (by simpa using h)]

/-- `delete_ions` on a structure without topology, in explicit form. -/
lemma delete_ions_no_topology (g : Gbb ℚ) (ids : List ℕ)
    (hb : g.bonds = []) (ha : g.angles = []) (hd : g.dihedrals = [])
    (hi : g.impropers = []) :
    delete_ions ids g = some { g with
      bonds := [], angles := [], dihedrals := [], impropers := [],
      types := deleteIdx ids g.types,
      charges := deleteIdx ids g.charges,
      masses := deleteIdx ids g.masses,
      xyz := deleteIdx ids g.xyz,
      vel := if g.vel.isEmpty then g.vel else deleteIdx ids g.vel } := by
  unfold delete_ions
  rw [hb, ha, hd, hi]
  rfl

/-- C3 counterexample: the claimed invariant fails after a single public
mutation.  The empty structure has equal-length per-atom arrays, but
`insert_atom` called with a position only (its other arguments defaulting to
`None`) appends to the position array alone, leaving the arrays with
different lengths. -/
theorem C3_counterexample_insert_atom :
    equalLengths (emptyGbb ℚ) ∧
    ¬ equalLengths (insert_atom ![1, 2, 3] none none none (emptyGbb ℚ)) := by
  constructor
  · exact ⟨rfl, rfl, rfl, fun h => absurd rfl h⟩
  · intro h
    obtain ⟨ht, _, _, _⟩ := h
    simp [insert_atom, emptyGbb, strTruthy, ratTruthy] at ht

/-- C3 (amended): `delete_by_index` on an unbonded structure with
equal-length per-atom arrays leaves the arrays again with equal lengths
(the original claim fails for `insert_atom`, see the counterexample). -/
theorem C3_array_lengths_after_delete (g : Gbb ℚ) (ids : List ℕ)
    (hlen : equalLengths g) (hb : g.bonds = []) (ha : g.angles = [])
    (hd : g.dihedrals = []) (hi : g.impropers = []) :
    ∃ g', delete_ions ids g = some g' ∧ equalLengths g' := by
  obtain ⟨ht, hm, hc, hv⟩ := hlen
  refine ⟨_, delete_ions_no_topology g ids hb ha hd hi, ?_, ?_, ?_, ?_⟩
  · exact deleteIdxFrom_length_congr ids g.types 0 g.xyz ht
  · exact deleteIdxFrom_length_congr ids g.masses 0 g.xyz hm
  · exact deleteIdxFrom_length_congr ids g.charges 0 g.xyz hc
  · intro hne
    by_cases hv0 : g.vel.isEmpty
    · exfalso
      apply hne
      show (if g.vel.isEmpty then g.vel else deleteIdx ids g.vel) = []
      rw [if_pos hv0]
      exact List.isEmpty_iff.mp hv0
    · show (if g.vel.isEmpty then g.vel else deleteIdx ids g.vel).length =
        (deleteIdx ids g.xyz).length
      rw [if_neg hv0]
      exact deleteIdxFrom_length_congr ids g.vel 0 g.xyz
        (hv (by simpa [List.isEmpty_iff] using hv0))

/-- The concrete structure of the C3 witness. -/
def gC3 : Gbb ℚ :=
  { emptyGbb ℚ with
    xyz := [![0,0,0], ![1,1,1]], types := ["A", "B"],
    masses := [1, 2], charges := [0, 0] }

/-- C3 witness: the amended delete claim applied at a concrete two-atom
structure, deleting index 0. -/
theorem C3_array_lengths_after_delete_witness :
    equalLengths gC3 ∧
    ∃ g', delete_ions [0] gC3 = some g' ∧ equalLengths g' := by
  have h : equalLengths gC3 := ⟨rfl, rfl, rfl, fun h' => absurd rfl h'⟩
  exact ⟨h, C3_array_lengths_after_delete gC3 [0] h rfl rfl rfl rfl⟩

/-! ## C8: delete_by_index scenario -/

/-- C8: deleting index set {1, 3} from any unbonded 5-atom structure keeps
exactly the entries at indices 0, 2, 4, in order, in every per-atom array. -/
theorem C8_delete_indices_one_three (g : Gbb ℚ)
    (p0 p1 p2 p3 p4 : Vec3 ℚ) (t0 t1 t2 t3 t4 : String)
    (m0 m1 m2 m3 m4 c0 c1 c2 c3 c4 : ℚ)
    (hx : g.xyz = [p0, p1, p2, p3, p4]) (ht : g.types = [t0, t1, t2, t3, t4])
    (hm : g.masses = [m0, m1, m2, m3, m4])
    (hc : g.charges = [c0, c1, c2, c3, c4])
    (hb : g.bonds = []) (ha : g.angles = []) (hd : g.dihedrals = [])
    (hi : g.impropers = []) :
    ∃ g', delete_ions [1, 3] g = some g' ∧
      g'.xyz = [p0, p2, p4] ∧ g'.types = [t0, t2, t4] ∧
      g'.masses = [m0, m2, m4] ∧ g'.charges = [c0, c2, c4] := by
  refine ⟨_, delete_ions_no_topology g [1, 3] hb ha hd hi, ?_, ?_, ?_, ?_⟩
  · show deleteIdx [1, 3] g.xyz = [p0, p2, p4]
    rw [hx]
    rfl
  · show deleteIdx [1, 3] g.types = [t0, t2, t4]
    rw [ht]
    rfl
  · show deleteIdx [1, 3] g.masses = [m0, m2, m4]
    rw [hm]
    rfl
  · show deleteIdx [1, 3] g.charges = [c0, c2, c4]
    rw [hc]
    rfl

/-- The concrete 5-atom structure of the C8 witness. -/
def gC8 : Gbb ℚ :=
  { emptyGbb ℚ with
    xyz := [![0,0,0], ![1,0,0], ![2,0,0], ![3,0,0], ![4,0,0]],
    types := ["a", "b", "c", "d", "e"],
    masses := [1, 2, 3, 4, 5], charges := [5, 6, 7, 8, 9] }

/-- C8 witness: the scenario at explicit numbers. -/
theorem C8_delete_indices_one_three_witness :
    ∃ g', delete_ions [1, 3] gC8 = some g' ∧
      g'.xyz = [![0,0,0], ![2,0,0], ![4,0,0]] ∧
      g'.types = ["a", "c", "e"] ∧
      g'.masses = [1, 3, 5] ∧ g'.charges = [5, 7, 9] :=
  C8_delete_indices_one_three gC8 _ _ _ _ _ _ _ _ _ _ _ _ _ _ _ _ _ _ _ _
    rfl rfl rfl rfl rfl rfl rfl rfl

/-! ## C4: rotate about a fixed atom -/

/-- The one-atom structure of the C4 failing input: the atom sits at
(0, 1, 0). -/
def gC4 : Gbb ℝ := { emptyGbb ℝ with xyz := [![0, 1, 0]] }

/-- C4 failing input (code bug): `rotate` is documented to keep the
`fixed_atom` fixed, but Python's `if fixed_atom:` is falsy for the valid
index 0, so no pivot translation happens: rotating by π about x with
`fixed_atom = 0` moves atom 0 from (0, 1, 0) to (0, -1, 0). -/
theorem C4_rotate_fixed_atom_zero_moves :
    (rotate (Real.pi, 0, 0) (some 0) gC4).xyz = [![(0 : ℝ), -1, 0]] ∧
    (rotate (Real.pi, 0, 0) (some 0) gC4).xyz.getD 0 0 ≠ gC4.xyz.getD 0 0 := by
  have h1 : (rotate (Real.pi, 0, 0) (some 0) gC4).xyz = [![(0 : ℝ), -1, 0]] := by
    unfold rotate
    rw [show intTruthy (some 0) = false from rfl]
    dsimp only
    rw [if_pos (Real.pi_ne_zero), if_neg (by simp : ¬((0 : ℝ) ≠ 0)),
      if_neg (by simp : ¬((0 : ℝ) ≠ 0))]
    show List.map (rotX Real.pi) gC4.xyz = _
    rw [show gC4.xyz = [![0, 1, 0]] from rfl]
    rw [List.map_cons, List.map_nil]
    congr 1
    funext k
    fin_cases k <;> simp [rotX, Real.cos_pi, Real.sin_pi]
  refine ⟨h1, ?_⟩
  rw [h1]
  intro h
  have h2 := congrFun h 1
  rw [show gC4.xyz = [![0, 1, 0]] from rfl] at h2
  simp [List.getD] at h2
  norm_num at h2

/-! ## C5: wrap raises on the misspelled attribute -/

/-- The box of the C5 failing input. -/
def boxC5 : Box :=
  { mins := ![0, 0, 0], maxs := ![10, 10, 10], lengths := ![10, 10, 10] }

/-- The structure of the C5 failing input: one atom outside the box. -/
def gC5 : Gbb ℚ := { emptyGbb ℚ with xyz := [![15, 5, 5]] }

/-- C5 failing input (code bug): `wrap` promises to move every coordinate
into `[min, max)` without error, but any out-of-range coordinate reaches a
shift line that reads the misspelled attribute `box.lenghts`, raising
`AttributeError`: one atom at x = 15 in the box `[0, 10)³` makes `wrap`
raise instead of wrapping to x = 5. -/
theorem C5_wrap_attribute_error :
    wrap boxC5 gC5 = Except.error wrapAttrErr := by
  rfl

/-! ## C7: XML prototype, optional bond and mandatory mass -/

/-- The consistent bond-less prototype of the C7 witness. -/
def protoC7 : XmlProto :=
  { position := some [![0, 0, 0]], bond := none, angle := none,
    dihedral := none, improper := none, mass := some [1],
    charge := some [0], atom_type := some ["A"] }

/-- The mass-less prototype of the C7 witness. -/
def protoC7m : XmlProto :=
  { position := some [![0, 0, 0]], bond := none, angle := none,
    dihedral := none, improper := none, mass := none,
    charge := some [0], atom_type := some ["A"] }

/-- C7: a mutually consistent prototype whose `bond` element is absent loads
without error into a bond-free structure which still has zero bonds; a
prototype whose `mass` element is absent makes the loader raise the
consistency error for a missing mandatory section. -/
theorem C7_xml_optional_bond_mandatory_mass (g : Gbb ℚ) (p q : XmlProto)
    (xyz0 : List (Vec3 ℚ)) (ms cs : List ℚ) (ts : List String)
    (hp1 : p.position = some xyz0) (hp2 : p.mass = some ms)
    (hp3 : p.charge = some cs) (hp4 : p.atom_type = some ts)
    (hl1 : xyz0.length = ms.length) (hl2 : ms.length = cs.length)
    (hl3 : ms.length = ts.length)
    (hpb : p.bond = none) (hgb : g.bonds = [])
    (hq1 : q.position = some xyz0) (hq2 : q.mass = none) :
    (∃ g', load_xml_prototype g p false false false = Except.ok g' ∧
      g'.bonds = [])
    ∧ load_xml_prototype g q false false false =
        Except.error (LoadErr.missingSection "mass") := by
  constructor
  · unfold load_xml_prototype
    rw [hp1, hp2, hp3, hp4, hpb]
    simp only [if_neg Bool.false_ne_true]
    rw [if_pos (by simp [hl1, hl2] : (xyz0.length == ms.length &&
      ms.length == cs.length) = true)]
    rw [if_pos (by simp [hl3] : (ms.length == ts.length) = true)]
    cases hpa : p.angle <;> cases hpd : p.dihedral <;> cases hpi : p.improper <;>
      exact ⟨_, rfl, by simp [hgb]⟩
  · unfold load_xml_prototype
    rw [hq1, hq2]

/-- C7 witness: the two prototype scenarios at concrete data, loading into a
fresh structure. -/
theorem C7_xml_optional_bond_mandatory_mass_witness :
    (∃ g', load_xml_prototype (emptyGbb ℚ) protoC7 false false false =
      Except.ok g' ∧ g'.bonds = [])
    ∧ load_xml_prototype (emptyGbb ℚ) protoC7m false false false =
        Except.error (LoadErr.missingSection "mass") :=
  C7_xml_optional_bond_mandatory_mass (emptyGbb ℚ) protoC7 protoC7m
    [![0, 0, 0]] [1] [0] ["A"] rfl rfl rfl rfl rfl rfl rfl rfl rfl rfl rfl
